import Mathlib

/-!
Shallow embedding of the `Timer` class from src/timer.hpp / src/timer.cpp.

Doubles are modelled as exact rationals (`ℚ`); the monotonic clock read
`std::chrono::steady_clock::now()` is modelled by threading an explicit
`now : ℚ` argument through each member function that reads the clock.
The default-constructed `start_time` (`time_point()`) is modelled as `0`.
The constructor throws `std::invalid_argument` on a non-positive duration;
this is modelled by returning `none`.
-/

/-- State of a `Timer` object: the three private fields of the C++ class. -/
structure Timer where
  duration : ℚ
  start_time : ℚ
  running : Bool
deriving Repr, DecidableEq

namespace Timer

/-- `Timer::start()` from src/timer.cpp lines 15-18: records the current
clock value as `start_time` and sets `running` to true. -/
def start (t : Timer) (now : ℚ) : Timer :=
  { t with start_time := now, running := true }

/-- `Timer::time_up()` from src/timer.cpp lines 20-24: false when not
running, otherwise whether `now - start_time >= duration`. -/
def time_up (t : Timer) (now : ℚ) : Bool :=
  if !t.running then false
  else decide (now - t.start_time ≥ t.duration)

/-- `Timer::time_up_and_try_to_restart()` from src/timer.cpp lines 26-32:
computes `time_up()`, restarts if it was true, and returns the flag.
The returned pair is (result, post-state). -/
def time_up_and_try_to_restart (t : Timer) (now : ℚ) : Bool × Timer :=
  let time_is_up := t.time_up now
  if time_is_up then (time_is_up, t.start now) else (time_is_up, t)

/-- `Timer::get_remaining_time()` from src/timer.cpp lines 34-40: the full
duration when not running; otherwise `duration - elapsed`, floored at 0. -/
def get_remaining_time (t : Timer) (now : ℚ) : ℚ :=
  if !t.running then t.duration
  else
    let elapsed := now - t.start_time
    let remaining := t.duration - elapsed
    if remaining > 0 then remaining else 0

/-- `Timer::change_duration(double)` from src/timer.cpp lines 42-46:
silently ignores a non-positive argument, otherwise replaces `duration`. -/
def change_duration (t : Timer) (duration_seconds : ℚ) : Timer :=
  if duration_seconds ≤ 0 then t
  else { t with duration := duration_seconds }

/-- `Timer::get_percent_complete()` from src/timer.cpp lines 48-54: 0 when
not running; otherwise `elapsed / duration`, capped at 1. -/
def get_percent_complete (t : Timer) (now : ℚ) : ℚ :=
  if !t.running then 0
  else
    let elapsed := now - t.start_time
    let progress := elapsed / t.duration
    if progress < 1 then progress else 1

/-- `Timer::Timer(double, bool)` from src/timer.cpp lines 4-13: throws
`std::invalid_argument` when `duration_seconds <= 0` (modelled as `none`);
otherwise the fields are initialised to `(duration_seconds, default, false)`
and `start()` runs when `start_immediately` is set. -/
def construct (now : ℚ) (duration_seconds : ℚ) (start_immediately : Bool) :
    Option Timer :=
  if duration_seconds ≤ 0 then none
  else if start_immediately then
    some (Timer.start ⟨duration_seconds, 0, false⟩ now)
  else
    some ⟨duration_seconds, 0, false⟩

/-- States reachable through the public API: a successful construction
followed by any sequence of the state-mutating member functions. The
read-only members (`time_up`, `get_remaining_time`, `get_percent_complete`)
are `const` and produce no new state. -/
inductive Reachable : Timer → Prop
  | constructed {now d : ℚ} {si : Bool} {t : Timer} :
      construct now d si = some t → Reachable t
  | started {t : Timer} (now : ℚ) : Reachable t → Reachable (t.start now)
  | restarted {t : Timer} (now : ℚ) :
      Reachable t → Reachable (t.time_up_and_try_to_restart now).2
  | changed {t : Timer} (x : ℚ) : Reachable t → Reachable (t.change_duration x)

/-- Helper: in the running state, `get_remaining_time` is the elapsed-time
deficit floored at zero. -/
theorem get_remaining_time_eq_max (t : Timer) (now : ℚ) (h : t.running = true) :
    t.get_remaining_time now = max 0 (t.duration - (now - t.start_time)) := by
  simp only [get_remaining_time, h, Bool.not_true, Bool.false_eq_true, if_false]
  rcases lt_trichotomy (t.duration - (now - t.start_time)) 0 with hlt | heq | hgt
  · rw [if_neg (by linarith), max_eq_left (le_of_lt hlt)]
  · rw [heq, if_neg (lt_irrefl 0), max_self]
  · rw [if_pos hgt, max_eq_right (le_of_lt hgt)]

/-- Helper: in the running state, `get_percent_complete` is the progress
ratio capped at one. -/
theorem get_percent_complete_eq_min (t : Timer) (now : ℚ) (h : t.running = true) :
    t.get_percent_complete now = min ((now - t.start_time) / t.duration) 1 := by
  simp only [get_percent_complete, h, Bool.not_true, Bool.false_eq_true, if_false]
  rcases lt_trichotomy ((now - t.start_time) / t.duration) 1 with hlt | heq | hgt
  · rw [if_pos hlt, min_eq_left (le_of_lt hlt)]
  · rw [heq, if_neg (lt_irrefl 1), min_self]
  · rw [if_neg (not_lt_of_gt hgt), min_eq_right (le_of_lt hgt)]

/-- Helper: the pair returned by `time_up_and_try_to_restart`, written
with the branch made explicit. -/
theorem time_up_and_try_to_restart_eq (t : Timer) (now : ℚ) :
    t.time_up_and_try_to_restart now =
      (t.time_up now, if t.time_up now then t.start now else t) := by
  unfold time_up_and_try_to_restart
  cases h : t.time_up now <;> simp [h]

end Timer

/-- C1: constructing a Timer fails (throws `std::invalid_argument`,
modelled as `none`) exactly when the requested duration is non-positive,
and succeeds (yields a usable object) exactly when it is positive,
regardless of the clock value and the `start_immediately` flag. -/
theorem construct_fails_iff_nonpos (now d : ℚ) (si : Bool) :
    (Timer.construct now d si).isSome = decide (0 < d) := by
  by_cases h : d ≤ 0
  · simp [Timer.construct, h, not_lt_of_ge h]
  · simp [Timer.construct, h, lt_of_not_ge h]
    cases si <;> simp

/-- C2: `time_up` returns true exactly when the timer is running and the
elapsed time `now - start_time` has reached the configured duration; in
particular it returns false whenever the timer was never started. The
member is `const`: in this embedding it returns no post-state at all. -/
theorem time_up_iff (t : Timer) (now : ℚ) :
    t.time_up now = true ↔ (t.running = true ∧ t.duration ≤ now - t.start_time) := by
  unfold Timer.time_up
  cases hr : t.running <;> simp [hr, ge_iff_le]

/-- C3: `get_remaining_time` returns the full configured duration when the
timer is not running, and `max 0 (duration - elapsed)` when running; with a
positive configured duration the result is never negative. -/
theorem get_remaining_time_spec (t : Timer) (now : ℚ) (hd : 0 < t.duration) :
    t.get_remaining_time now =
      (if t.running then max 0 (t.duration - (now - t.start_time)) else t.duration) ∧
    0 ≤ t.get_remaining_time now := by
  cases hr : t.running
  · have he : t.get_remaining_time now = t.duration := by
      simp [Timer.get_remaining_time, hr]
    exact ⟨by simp [he, hr], he ▸ le_of_lt hd⟩
  · have he := t.get_remaining_time_eq_max now hr
    exact ⟨by simp [he, hr], he ▸ le_max_left 0 _⟩

/-- Witness for C3 at a concrete input: duration 5, started at 0, queried
at 2 — three seconds remain and the result is non-negative. -/
theorem get_remaining_time_spec_witness :
    (Timer.mk 5 0 true).get_remaining_time 2 =
      (if (Timer.mk 5 0 true).running
        then max 0 ((Timer.mk 5 0 true).duration - (2 - (Timer.mk 5 0 true).start_time))
        else (Timer.mk 5 0 true).duration) ∧
    0 ≤ (Timer.mk 5 0 true).get_remaining_time 2 :=
  get_remaining_time_spec (Timer.mk 5 0 true) 2 (by norm_num)

/-- C4: with a positive configured duration and a monotonic clock (so the
elapsed time is non-negative), `get_percent_complete` returns 0 when not
running and the progress ratio capped at 1 when running, and the result
always lies in the interval [0, 1]. -/
theorem get_percent_complete_spec (t : Timer) (now : ℚ)
    (hd : 0 < t.duration) (hm : t.start_time ≤ now) :
    t.get_percent_complete now =
      (if t.running then min ((now - t.start_time) / t.duration) 1 else 0) ∧
    0 ≤ t.get_percent_complete now ∧ t.get_percent_complete now ≤ 1 := by
  cases hr : t.running
  · have he : t.get_percent_complete now = 0 := by
      simp [Timer.get_percent_complete, hr]
    exact ⟨by simp [he, hr], by rw [he], by rw [he]; exact zero_le_one⟩
  · have he := t.get_percent_complete_eq_min now hr
    have hnn : 0 ≤ (now - t.start_time) / t.duration :=
      div_nonneg (by linarith) (le_of_lt hd)
    refine ⟨by simp [he, hr], ?_, ?_⟩
    · rw [he]; exact le_min hnn zero_le_one
    · rw [he]; exact min_le_right _ 1

/-- Witness for C4 at a concrete input: duration 4, started at 1, queried
at 2 — one quarter complete, inside [0, 1]. -/
theorem get_percent_complete_spec_witness :
    (Timer.mk 4 1 true).get_percent_complete 2 =
      (if (Timer.mk 4 1 true).running
        then min ((2 - (Timer.mk 4 1 true).start_time) / (Timer.mk 4 1 true).duration) 1
        else 0) ∧
    0 ≤ (Timer.mk 4 1 true).get_percent_complete 2 ∧
    (Timer.mk 4 1 true).get_percent_complete 2 ≤ 1 :=
  get_percent_complete_spec (Timer.mk 4 1 true) 2 (by norm_num) (by norm_num)

/-- C5: `time_up_and_try_to_restart` returns exactly what `time_up` returns
at the same instant; when that value is true the post-state is the result
of `start` at that instant, and when it is false the state (duration,
start_time, running) is unchanged. -/
theorem time_up_and_try_to_restart_spec (t : Timer) (now : ℚ) :
    (t.time_up_and_try_to_restart now).1 = t.time_up now ∧
    (t.time_up_and_try_to_restart now).2 =
      (if t.time_up now then t.start now else t) := by
  rw [t.time_up_and_try_to_restart_eq now]
  exact ⟨rfl, rfl⟩

/-- C6: `change_duration x` keeps the prior duration when `x ≤ 0` and
installs `x` when `x > 0`; in both cases `running` and `start_time` are
untouched, and no error is surfaced (the function is total). -/
theorem change_duration_spec (t : Timer) (x : ℚ) :
    (t.change_duration x).duration = (if x ≤ 0 then t.duration else x) ∧
    (t.change_duration x).running = t.running ∧
    (t.change_duration x).start_time = t.start_time := by
  unfold Timer.change_duration
  by_cases h : x ≤ 0 <;> simp [h]

/-- C7: every state reachable through the public API has a strictly
positive configured duration (so the division in `get_percent_complete`
is never a division by zero): the invariant is established by a
successful construction and preserved by `start`,
`time_up_and_try_to_restart` and `change_duration`, while the `const`
queries produce no new state. -/
theorem duration_pos_invariant (t : Timer) (h : Timer.Reachable t) :
    0 < t.duration ∧ t.duration ≠ 0 := by
  have hp : 0 < t.duration := by
    induction h with
    | constructed hc =>
        rename_i now d si t
        unfold Timer.construct at hc
        by_cases hd : d ≤ 0
        · rw [if_pos hd] at hc
          exact absurd hc (Option.noConfusion)
        · rw [if_neg hd] at hc
          have hd' : 0 < d := lt_of_not_ge hd
          cases si
          · simp only [Bool.false_eq_true, if_false, Option.some.injEq] at hc
            rw [← hc]
            exact hd'
          · simp only [if_true, Option.some.injEq] at hc
            rw [← hc]
            exact hd'
    | started now _ ih => simpa [Timer.start] using ih
    | restarted now _ ih =>
        rename_i t _
        rw [t.time_up_and_try_to_restart_eq now]
        cases hu : t.time_up now <;> simpa [hu, Timer.start] using ih
    | changed x _ ih =>
        rename_i t _
        unfold Timer.change_duration
        by_cases hx : x ≤ 0
        · simpa [hx] using ih
        · simpa [hx] using lt_of_not_ge hx
  exact ⟨hp, ne_of_gt hp⟩

/-- Witness for C7 at a concrete reachable state: construct with duration 1
at clock 0 without immediate start. -/
theorem duration_pos_invariant_witness :
    0 < (Timer.mk 1 0 false).duration ∧ (Timer.mk 1 0 false).duration ≠ 0 :=
  duration_pos_invariant (Timer.mk 1 0 false)
    (@Timer.Reachable.constructed 0 1 false (Timer.mk 1 0 false)
      (by norm_num [Timer.construct]))

/-- C8: for a running timer with positive configured duration and no
intervening mutation, `get_remaining_time` is non-increasing in the clock
instant (and once it reaches 0 it stays 0), while `get_percent_complete`
is non-decreasing (and once it reaches 1 it stays 1). -/
theorem polling_monotone_spec (t : Timer) (t1 t2 : ℚ)
    (hr : t.running = true) (hd : 0 < t.duration) (h12 : t1 ≤ t2) :
    t.get_remaining_time t2 ≤ t.get_remaining_time t1 ∧
    t.get_percent_complete t1 ≤ t.get_percent_complete t2 ∧
    (t.get_remaining_time t1 = 0 → t.get_remaining_time t2 = 0) ∧
    (t.get_percent_complete t1 = 1 → t.get_percent_complete t2 = 1) := by
  have hrem1 := t.get_remaining_time_eq_max t1 hr
  have hrem2 := t.get_remaining_time_eq_max t2 hr
  have hpc1 := t.get_percent_complete_eq_min t1 hr
  have hpc2 := t.get_percent_complete_eq_min t2 hr
  have hdiv : (t1 - t.start_time) / t.duration ≤ (t2 - t.start_time) / t.duration := by
    gcongr
  have hremmono : t.get_remaining_time t2 ≤ t.get_remaining_time t1 := by
    rw [hrem1, hrem2]
    exact max_le_max le_rfl (by linarith)
  have hpcmono : t.get_percent_complete t1 ≤ t.get_percent_complete t2 := by
    rw [hpc1, hpc2]
    exact min_le_min hdiv le_rfl
  refine ⟨hremmono, hpcmono, ?_, ?_⟩
  · intro h0
    have hnn : 0 ≤ t.get_remaining_time t2 := by
      rw [hrem2]; exact le_max_left 0 _
    linarith [h0 ▸ hremmono]
  · intro h1
    have hub : t.get_percent_complete t2 ≤ 1 := by
      rw [hpc2]; exact min_le_right _ 1
    linarith [h1 ▸ hpcmono]

/-- Witness for C8 at concrete inputs: duration 2, started at 0, polled at
1 and then at 3. -/
theorem polling_monotone_spec_witness :
    (Timer.mk 2 0 true).get_remaining_time 3 ≤ (Timer.mk 2 0 true).get_remaining_time 1 ∧
    (Timer.mk 2 0 true).get_percent_complete 1 ≤ (Timer.mk 2 0 true).get_percent_complete 3 ∧
    ((Timer.mk 2 0 true).get_remaining_time 1 = 0 →
      (Timer.mk 2 0 true).get_remaining_time 3 = 0) ∧
    ((Timer.mk 2 0 true).get_percent_complete 1 = 1 →
      (Timer.mk 2 0 true).get_percent_complete 3 = 1) :=
  polling_monotone_spec (Timer.mk 2 0 true) 1 3 rfl (by norm_num) (by norm_num)

/-- C9: for every clock instant and duration, constructing with
`start_immediately = true` yields exactly the state obtained by
constructing with `start_immediately = false` and then calling `start`
at the same instant (both fail together on a non-positive duration, which
covers in particular every positive duration). -/
theorem construct_start_immediately (now d : ℚ) :
    Timer.construct now d true =
      Option.map (fun t => t.start now) (Timer.construct now d false) := by
  unfold Timer.construct
  by_cases h : d ≤ 0 <;> simp [h]

/-- C10: with a positive configured duration, `time_up` is true at a given
instant exactly when `get_remaining_time` is 0 at that same instant; for a
timer that is not running, `time_up` is false and the remaining time is
the positive duration. -/
theorem time_up_iff_remaining_zero (t : Timer) (now : ℚ) (hd : 0 < t.duration) :
    (t.time_up now = true ↔ t.get_remaining_time now = 0) := by
  cases hr : t.running
  · have hrem : t.get_remaining_time now = t.duration := by
      simp [Timer.get_remaining_time, hr]
    simp [Timer.time_up, hr, hrem, ne_of_gt hd]
  · rw [t.get_remaining_time_eq_max now hr]
    unfold Timer.time_up
    simp only [hr, Bool.not_true, Bool.false_eq_true, if_false, decide_eq_true_eq,
      ge_iff_le, max_eq_left_iff]
    constructor
    · intro h; linarith
    · intro h; linarith

/-- Witness for C10 at a concrete input: duration 1, started at 0, queried
at 2 — time is up, so the remaining time is exactly 0. -/
theorem time_up_iff_remaining_zero_witness :
    (Timer.mk 1 0 true).get_remaining_time 2 = 0 :=
  (time_up_iff_remaining_zero (Timer.mk 1 0 true) 2 (by norm_num)).mp
    (by norm_num [Timer.time_up])
